import Mathlib

/-!
Verification of the library backend (personal library inventory REST API).

The development shallowly embeds the Python source:
* `src/utils/validators.py` — ISBN-10/ISBN-13 normalization and checksum validation;
* `src/services/database.py` — the MongoDB-backed repository (documents are
  modelled as association lists of field/value pairs; the collection is a list
  of documents in natural order; Mongo `$regex` with option `i` on a literal
  pattern is modelled as case-insensitive substring matching, and the unique
  index on `isbn` required by the deployment is modelled inside `insertOne`);
* `src/controllers/book_controller.py` — the request handlers relevant to the
  claims (list pagination, generic partial update, manual add).

Definitions mirror the source; `...SpecHolds` / `...Spec` definitions restate
the natural-language specification and are proved equivalent to the embedded
code.
-/

namespace LibraryBackend

/-! ## ISBN validator (`src/utils/validators.py`) -/

/-- Value of a decimal digit character. -/
def digitVal (c : Char) : Nat := c.toNat - '0'.toNat

/-- `re.sub(r'[^0-9X]', '', isbn.upper())`: uppercase the string, then keep
only characters in `[0-9X]`.  (`Char.toUpper` agrees with Python `str.upper`
on every character whose uppercase form lands in `[0-9X]`.) -/
def normalizeIsbn (s : List Char) : List Char :=
  (s.map Char.toUpper).filter (fun c => c.isDigit || c == 'X')

/-- The accumulation loop of `validate_isbn10`: walk the first nine characters
with weights `w, w-1, ...`; a non-digit aborts with `none` (the Python
`return False`), otherwise the weighted sum is returned. -/
def isbn10Sum : List Char → Nat → Option Nat
  | [], _ => some 0
  | c :: rest, w =>
    if c.isDigit then
      match isbn10Sum rest (w - 1) with
      | some t => some (digitVal c * w + t)
      | none => none
    else none

/-- `validate_isbn10` from `src/utils/validators.py`. -/
def validate_isbn10 (isbn : List Char) : Bool :=
  if isbn.length ≠ 10 then false
  else
    match isbn10Sum (isbn.take 9) 10 with
    | none => false
    | some total =>
      let check_digit := isbn.getD 9 ' '
      if check_digit = 'X' then decide ((total + 10) % 11 = 0)
      else if check_digit.isDigit then decide ((total + digitVal check_digit) % 11 = 0)
      else false

/-- The `for i in range(12)` loop of `validate_isbn13`: multiplier `1` at even
index, `3` at odd index. -/
def isbn13Total (isbn : List Char) : Nat :=
  ((List.range 12).map (fun i => digitVal (isbn.getD i ' ') * (if i % 2 = 0 then 1 else 3))).sum

/-- `validate_isbn13` from `src/utils/validators.py`. -/
def validate_isbn13 (isbn : List Char) : Bool :=
  if isbn.length ≠ 13 then false
  else if ¬ (isbn.all Char.isDigit) then false
  else
    let total := isbn13Total isbn
    let check_digit := (10 - (total % 10)) % 10
    decide (check_digit = digitVal (isbn.getD 12 ' '))

/-- `validate_isbn` from `src/utils/validators.py`: empty input is rejected,
otherwise the input is normalized and dispatched on the normalized length. -/
def validate_isbn (isbn : String) : Bool :=
  if isbn = "" then false
  else
    let clean_isbn := normalizeIsbn isbn.data
    if clean_isbn.length = 10 then validate_isbn10 clean_isbn
    else if clean_isbn.length = 13 then validate_isbn13 clean_isbn
    else false

/-! Specification-side restatements of the checksum rules (from the wording of
the spec, §4.1). -/

/-- Check value of the tenth ISBN-10 character: `X` counts as 10, a digit as
itself. -/
def isbn10CheckVal (c : Char) : Nat := if c = 'X' then 10 else digitVal c

/-- The ISBN-10 rule as the spec states it: the first nine characters are
decimal digits, the tenth is a digit or `X` (valued 10), and the sum of the
first nine digits weighted `10, 9, ..., 2` by position plus the check value is
divisible by 11. -/
def isbn10SpecHolds (ns : List Char) : Prop :=
  (∀ i < 9, (ns.getD i ' ').isDigit = true) ∧
  ((ns.getD 9 ' ').isDigit = true ∨ ns.getD 9 ' ' = 'X') ∧
  (((List.range 9).map (fun i => digitVal (ns.getD i ' ') * (10 - i))).sum
      + isbn10CheckVal (ns.getD 9 ' ')) % 11 = 0

instance (ns : List Char) : Decidable (isbn10SpecHolds ns) := by
  unfold isbn10SpecHolds; infer_instance

/-- The ISBN-13 rule as the spec states it: all thirteen characters are
decimal digits and `(10 - (sum of the first twelve digits with alternating
multipliers 1,3,1,3,...) mod 10) mod 10` equals the thirteenth digit. -/
def isbn13SpecHolds (ns : List Char) : Prop :=
  (∀ i < 13, (ns.getD i ' ').isDigit = true) ∧
  (10 - (((List.range 12).map
      (fun i => digitVal (ns.getD i ' ') * (if i % 2 = 0 then 1 else 3))).sum % 10)) % 10
    = digitVal (ns.getD 12 ' ')

instance (ns : List Char) : Decidable (isbn13SpecHolds ns) := by
  unfold isbn13SpecHolds; infer_instance

/-! Auxiliary lemmas about the ISBN-10 loop. -/

/-- Weighted sum of digit characters with weights `w, w-1, ...`. -/
def weightedSum : List Char → Nat → Nat
  | [], _ => 0
  | c :: rest, w => digitVal c * w + weightedSum rest (w - 1)

theorem isbn10Sum_eq (cs : List Char) (w : Nat) :
    isbn10Sum cs w = if cs.all Char.isDigit then some (weightedSum cs w) else none := by
  induction cs generalizing w with
  | nil => simp [isbn10Sum, weightedSum]
  | cons c rest ih =>
    simp only [isbn10Sum, ih]
    by_cases hc : c.isDigit
    · by_cases hall : rest.all Char.isDigit
      · simp [hc, hall, weightedSum, List.all_cons]
      · simp [hc, hall, List.all_cons]
    · simp [hc, List.all_cons]

theorem weightedSum_eq_rangeSum (cs : List Char) (w : Nat) :
    weightedSum cs w
      = ((List.range cs.length).map (fun i => digitVal (cs.getD i ' ') * (w - i))).sum := by
  induction cs generalizing w with
  | nil => simp [weightedSum]
  | cons c rest ih =>
    rw [weightedSum, ih (w - 1)]
    rw [List.length_cons, List.range_succ_eq_map]
    simp only [List.map_cons, List.map_map, List.sum_cons, List.getD_cons_zero,
      Nat.sub_zero]
    congr 1
    refine congrArg List.sum (List.map_congr_left ?_)
    intro a _
    simp only [Function.comp_apply, Nat.succ_eq_add_one, List.getD_cons_succ]
    congr 1
    omega

theorem getD_take {α : Type} (l : List α) (n i : Nat) (d : α) (h : i < n) :
    (l.take n).getD i d = l.getD i d := by
  induction l generalizing n i with
  | nil => simp
  | cons a l ih =>
    cases n with
    | zero => omega
    | succ n =>
      cases i with
      | zero => simp
      | succ i =>
        simp only [List.take_succ_cons, List.getD_cons_succ]
        exact ih n i (by omega)

theorem all_eq_forall_getD {α : Type} (l : List α) (p : α → Bool) (d : α) :
    (l.all p = true) ↔ ∀ i < l.length, p (l.getD i d) = true := by
  induction l with
  | nil => simp
  | cons a l ih =>
    simp only [List.all_cons, Bool.and_eq_true, ih, List.length_cons]
    constructor
    · rintro ⟨h1, h2⟩ i hi
      cases i with
      | zero => simpa using h1
      | succ i =>
        simp only [List.getD_cons_succ]
        exact h2 i (by omega)
    · intro H
      refine ⟨by simpa using H 0 (by omega), fun i hi => ?_⟩
      have := H (i + 1) (by omega)
      simpa using this

theorem validate_isbn10_iff (ns : List Char) (h : ns.length = 10) :
    validate_isbn10 ns = true ↔ isbn10SpecHolds ns := by
  have htake : (ns.take 9).length = 9 := by rw [List.length_take]; omega
  have hgetD : ∀ i < 9, (ns.take 9).getD i ' ' = ns.getD i ' ' :=
    fun i hi => getD_take ns 9 i ' ' hi
  have hall : ((ns.take 9).all Char.isDigit = true)
      ↔ (∀ i < 9, (ns.getD i ' ').isDigit = true) := by
    rw [all_eq_forall_getD (ns.take 9) Char.isDigit ' ', htake]
    constructor
    · intro H i hi; rw [← hgetD i hi]; exact H i hi
    · intro H i hi; rw [hgetD i hi]; exact H i hi
  have hsum : weightedSum (ns.take 9) 10
      = ((List.range 9).map (fun i => digitVal (ns.getD i ' ') * (10 - i))).sum := by
    rw [weightedSum_eq_rangeSum, htake]
    refine congrArg List.sum (List.map_congr_left ?_)
    intro i hi
    rw [hgetD i (List.mem_range.mp hi)]
  have hguard : ¬ (ns.length ≠ 10) := by omega
  rcases hOption : isbn10Sum (ns.take 9) 10 with _ | total
  · have hd : ¬ ((ns.take 9).all Char.isDigit = true) := by
      intro hall9
      rw [isbn10Sum_eq, if_pos hall9] at hOption
      exact Option.noConfusion hOption
    simp only [validate_isbn10, if_neg hguard, hOption, Bool.false_eq_true, false_iff]
    intro hspec
    exact hd (hall.mpr hspec.1)
  · have hd : (ns.take 9).all Char.isDigit = true ∧ total = weightedSum (ns.take 9) 10 := by
      rw [isbn10Sum_eq] at hOption
      by_cases hall9 : (ns.take 9).all Char.isDigit
      · rw [if_pos hall9] at hOption
        exact ⟨hall9, (Option.some.injEq _ _ ▸ hOption).symm⟩
      · rw [if_neg hall9] at hOption
        exact Option.noConfusion hOption
    have h9 : ∀ i < 9, (ns.getD i ' ').isDigit = true := hall.mp hd.1
    have htot : total
        = ((List.range 9).map (fun i => digitVal (ns.getD i ' ') * (10 - i))).sum :=
      hd.2.trans hsum
    simp only [validate_isbn10, if_neg hguard, hOption]
    rw [htot]
    unfold isbn10SpecHolds isbn10CheckVal
    by_cases hx : ns.getD 9 ' ' = 'X'
    · rw [if_pos hx, hx]
      simp only [decide_eq_true_eq, if_true]
      constructor
      · intro hchk
        exact ⟨h9, Or.inr trivial, hchk⟩
      · rintro ⟨-, -, hchk⟩
        exact hchk
    · rw [if_neg hx]
      by_cases hdig : (ns.getD 9 ' ').isDigit
      · rw [if_pos hdig]
        simp only [decide_eq_true_eq]
        constructor
        · intro hchk
          refine ⟨h9, Or.inl hdig, ?_⟩
          rw [if_neg hx]
          exact hchk
        · rintro ⟨-, -, hchk⟩
          rw [if_neg hx] at hchk
          exact hchk
      · rw [if_neg hdig]
        simp only [Bool.false_eq_true, false_iff]
        rintro ⟨-, hor, -⟩
        rcases hor with hdig2 | hx2
        · exact hdig hdig2
        · exact hx hx2

theorem validate_isbn13_iff (ns : List Char) (h : ns.length = 13) :
    validate_isbn13 ns = true ↔ isbn13SpecHolds ns := by
  have hall : (ns.all Char.isDigit = true)
      ↔ (∀ i < 13, (ns.getD i ' ').isDigit = true) := by
    rw [all_eq_forall_getD ns Char.isDigit ' ', h]
  have hguard : ¬ (ns.length ≠ 13) := by omega
  by_cases hd : ns.all Char.isDigit
  · simp only [validate_isbn13, if_neg hguard, if_neg (not_not_intro hd), decide_eq_true_eq]
    unfold isbn13SpecHolds isbn13Total
    constructor
    · intro hchk
      exact ⟨hall.mp hd, hchk⟩
    · rintro ⟨-, hchk⟩
      exact hchk
  · simp only [validate_isbn13, if_neg hguard, if_pos hd, Bool.false_eq_true, false_iff]
    rintro ⟨hforall, -⟩
    exact hd (hall.mpr hforall)

theorem empty_not_len10 (h : (normalizeIsbn "".data).length = 10 ∨
    (normalizeIsbn "".data).length = 13) : False := by
  simp [normalizeIsbn] at h

/-- C1: for every input string whose normalized form has length 10,
`validate_isbn` returns `true` iff each of the first nine normalized characters
is a decimal digit, the tenth is a decimal digit or `X` (valued 10), and the
sum of the first nine digits weighted `10, 9, ..., 2` by position plus the
check value is divisible by 11 (so an `X` among the first nine positions, or
any other character as the check digit, yields `false`). -/
theorem validate_isbn_isbn10_correct (s : String)
    (h : (normalizeIsbn s.data).length = 10) :
    validate_isbn s = true ↔ isbn10SpecHolds (normalizeIsbn s.data) := by
  have hs : s ≠ "" := by
    intro he
    subst he
    exact empty_not_len10 (Or.inl h)
  simp only [validate_isbn, if_neg hs, h, if_pos]
  exact validate_isbn10_iff _ h

/-- Witness for C1 at the concrete ISBN-10 `0-439-70818-4`. -/
theorem validate_isbn_isbn10_correct_witness :
    validate_isbn "0-439-70818-4" = true :=
  (validate_isbn_isbn10_correct "0-439-70818-4" (by decide)).mpr (by decide)

/-- C2: for every input string whose normalized form has length 13,
`validate_isbn` returns `true` iff all thirteen normalized characters are
decimal digits and `(10 - (weighted sum of the first twelve digits with
alternating multipliers 1,3,1,3,...) mod 10) mod 10` equals the thirteenth
digit; and for every input whose normalized form has length neither 10 nor 13
(including the empty string), `validate_isbn` returns `false`. -/
theorem validate_isbn_isbn13_correct (s : String) :
    ((normalizeIsbn s.data).length = 13 →
      (validate_isbn s = true ↔ isbn13SpecHolds (normalizeIsbn s.data))) ∧
    ((normalizeIsbn s.data).length ≠ 10 → (normalizeIsbn s.data).length ≠ 13 →
      validate_isbn s = false) := by
  constructor
  · intro h13
    have hs : s ≠ "" := by
      intro he
      subst he
      exact empty_not_len10 (Or.inr h13)
    have hne : ¬ ((normalizeIsbn s.data).length = 10) := by omega
    simp only [validate_isbn, if_neg hs, if_neg hne, if_pos h13]
    exact validate_isbn13_iff _ h13
  · intro h10 h13
    by_cases hs : s = ""
    · simp [validate_isbn, hs]
    · simp [validate_isbn, hs, h10, h13]

/-- Witness for C2: the concrete ISBN-13 `978-0-439-70818-0` validates, and a
two-character input is rejected. -/
theorem validate_isbn_isbn13_correct_witness :
    validate_isbn "978-0-439-70818-0" = true ∧ validate_isbn "12" = false := by
  constructor
  · exact ((validate_isbn_isbn13_correct "978-0-439-70818-0").1 (by decide)).mpr (by decide)
  · exact (validate_isbn_isbn13_correct "12").2 (by decide) (by decide)

/-! ## Document-store model (`src/services/database.py`)

A stored document is an association list from field names to values (first
binding wins, as lookups in a Python dict / BSON document are by key); the
collection is the list of documents in natural order. -/

/-- A BSON-like field value as used by the book schema: a string, a list of
strings (`authors`, `categories`), an integer (`page_count`), or null. -/
inductive Val where
  | str : String → Val
  | strList : List String → Val
  | int : Int → Val
  | null : Val
deriving DecidableEq, Repr

/-- A document: field name / value pairs, earliest binding wins. -/
abbrev Doc := List (String × Val)

/-- Look a field up in a document. -/
def getField (d : Doc) (k : String) : Option Val :=
  (d.find? (fun p => p.1 == k)).map (fun p => p.2)

/-- Overwrite (or create) one field of a document. -/
def setField (d : Doc) (k : String) (v : Val) : Doc :=
  (k, v) :: d.filter (fun p => p.1 ≠ k)

/-- Mongo `$set` with an update document: each listed field is written in
order (a Python dict has unique keys, so the order is immaterial there). -/
def applySet (d : Doc) (upd : List (String × Val)) : Doc :=
  upd.foldl (fun acc p => setField acc p.1 p.2) d

/-- Python `del data[k]`: drop a key from an update payload. -/
def removeKey (upd : List (String × Val)) (k : String) : List (String × Val) :=
  upd.filter (fun p => p.1 ≠ k)

/-- Mongo `insert_one` under the unique index on `isbn` that the deployment
requires (spec §6: "unique index required"): inserting a document whose `isbn`
value equals that of a stored document raises `DuplicateKeyError`, modelled as
`none`; otherwise the document is appended. -/
def insertOne (coll : List Doc) (d : Doc) : Option (List Doc) :=
  if coll.any (fun e => decide (getField e "isbn" = getField d "isbn")) then none
  else some (coll ++ [d])

/-- `DatabaseService.add_book`: default a missing `reading_status` to
`unread`, insert, and report `False` (leaving the collection unchanged)
on a duplicate key. -/
def add_book (coll : List Doc) (book_data : Doc) : Bool × List Doc :=
  let book :=
    match getField book_data "reading_status" with
    | none => setField book_data "reading_status" (Val.str "unread")
    | some _ => book_data
  match insertOne coll book with
  | some newColl => (true, newColl)
  | none => (false, coll)

/-- `DatabaseService.get_all_books`: `find().skip(skip).limit(limit)` in
natural order. -/
def get_all_books (coll : List Doc) (limit skip : Nat) : List Doc :=
  (coll.drop skip).take limit

/-- Mongo `update_one({"isbn": isbn}, {"$set": upd})`: apply `$set` to the
first document whose `isbn` field equals the given string; the first component
is `matched_count`. -/
def updateFirst (coll : List Doc) (isbn : String) (upd : List (String × Val)) :
    Nat × List Doc :=
  match coll with
  | [] => (0, [])
  | d :: rest =>
    if getField d "isbn" = some (Val.str isbn) then
      (1, applySet d upd :: rest)
    else
      let r := updateFirst rest isbn upd
      (r.1, d :: r.2)

/-- `DatabaseService.update_book`: strip `isbn` from the payload (the unique
key is immutable), `$set` the rest on the matching document, and report
whether a document matched. -/
def update_book (coll : List Doc) (isbn : String) (updated_data : List (String × Val)) :
    Bool × List Doc :=
  let data := removeKey updated_data "isbn"
  let r := updateFirst coll isbn data
  (decide (r.1 > 0), r.2)

/-- `DatabaseService.book_exists`: `count_documents({"isbn": isbn}) > 0`. -/
def book_exists (coll : List Doc) (isbn : String) : Bool :=
  decide ((coll.countP (fun d => decide (getField d "isbn" = some (Val.str isbn)))) > 0)

/-- `DatabaseService.get_book_by_isbn`: `find_one({"isbn": isbn})`. -/
def get_book_by_isbn (coll : List Doc) (isbn : String) : Option Doc :=
  coll.find? (fun d => decide (getField d "isbn" = some (Val.str isbn)))

/-- `DatabaseService.update_reading_status`: reject a status outside the
three-value enum (`raise ValueError`), otherwise `$set` it on the matching
document. -/
def update_reading_status (coll : List Doc) (isbn status : String) :
    Except String (Bool × List Doc) :=
  if status ∉ ["read", "unread", "in_progress"] then
    Except.error "Status must be read, unread, or in_progress"
  else
    let r := updateFirst coll isbn [("reading_status", Val.str status)]
    Except.ok (decide (r.1 > 0), r.2)

/-! ### Search (`search_books`, `search_books_count`) -/

/-- Python truthiness of an optional string parameter (`if query:`). -/
def optTruthy : Option String → Bool
  | none => false
  | some s => decide (s ≠ "")

/-- Prefix test on character lists. -/
def charsPre : List Char → List Char → Bool
  | [], _ => true
  | _ :: _, [] => false
  | a :: as, b :: bs => a == b && charsPre as bs

/-- Substring test on character lists. -/
def charsSub (needle : List Char) : List Char → Bool
  | [] => charsPre needle []
  | c :: rest => charsPre needle (c :: rest) || charsSub needle rest

/-- Case-insensitive substring matching: the model of Mongo
`{'$regex': pat, '$options': 'i'}` for a literal (metacharacter-free)
pattern, per spec §4.3 ("case-insensitive substring match"). -/
def ciContains (pat s : String) : Bool :=
  charsSub (pat.data.map Char.toLower) (s.data.map Char.toLower)

/-- A regex clause matched against a field value: a string field matches by
substring, an array field matches if any element does. -/
def regexMatchVal (pat : String) : Val → Bool
  | Val.str s => ciContains pat s
  | Val.strList l => l.any (fun s => ciContains pat s)
  | _ => false

/-- `{field: {'$regex': pat, '$options': 'i'}}` applied to one document; an
absent field never matches. -/
def fieldRegexMatches (d : Doc) (field pat : String) : Bool :=
  match getField d field with
  | some v => regexMatchVal pat v
  | none => false

/-- The filter dictionary built by `search_books`: an optional `$or` clause
(from `query`) plus at most one regex clause per field. -/
structure SearchFilters where
  orClause : Option String
  title : Option String
  authors : Option String
  categories : Option String
deriving DecidableEq, Repr

/-- The empty filter dictionary (`if not filters: return []`). -/
def emptyFilters : SearchFilters :=
  { orClause := none, title := none, authors := none, categories := none }

/-- Matching of the filter dictionary: Mongo combines top-level keys with
logical AND; the `$or` clause matches `title` OR `authors` OR `description`. -/
def matchesFilters (f : SearchFilters) (d : Doc) : Bool :=
  (match f.orClause with
   | some q => fieldRegexMatches d "title" q || fieldRegexMatches d "authors" q
       || fieldRegexMatches d "description" q
   | none => true) &&
  (match f.title with
   | some t => fieldRegexMatches d "title" t
   | none => true) &&
  (match f.authors with
   | some a => fieldRegexMatches d "authors" a
   | none => true) &&
  (match f.categories with
   | some c => fieldRegexMatches d "categories" c
   | none => true)

/-- `DatabaseService.search_books`: build the filter dictionary from the
truthy criteria; with no criteria return `[]`; otherwise filter, skip and
limit. -/
def search_books (coll : List Doc) (query title author category : Option String)
    (limit skip : Nat) : List Doc :=
  let filters : SearchFilters :=
    { orClause := if optTruthy query then query else none
      title := if optTruthy title then title else none
      authors := if optTruthy author then author else none
      categories := if optTruthy category then category else none }
  if filters = emptyFilters then []
  else (((coll.filter (matchesFilters filters)).drop skip).take limit)

/-- One clause of the filter list built by `search_books_count`. -/
inductive SearchClause where
  | orQuery : String → SearchClause
  | fieldClause : String → String → SearchClause
deriving DecidableEq, Repr

/-- Matching of a single clause. -/
def clauseMatches (d : Doc) : SearchClause → Bool
  | SearchClause.orQuery q => fieldRegexMatches d "title" q
      || fieldRegexMatches d "authors" q || fieldRegexMatches d "description" q
  | SearchClause.fieldClause f pat => fieldRegexMatches d f pat

/-- The filter list built by `search_books_count`. -/
def countClauses (query title author category : Option String) : List SearchClause :=
  (if optTruthy query then [SearchClause.orQuery (query.getD "")] else []) ++
  (if optTruthy title then [SearchClause.fieldClause "title" (title.getD "")] else []) ++
  (if optTruthy author then [SearchClause.fieldClause "authors" (author.getD "")] else []) ++
  (if optTruthy category then [SearchClause.fieldClause "categories" (category.getD "")] else [])

/-- `DatabaseService.search_books_count`: combine the clause list with `$and`
(one clause is used bare; an empty list means the empty filter, which counts
every document) and count the matches. -/
def search_books_count (coll : List Doc) (query title author category : Option String) : Nat :=
  let filters := countClauses query title author category
  if filters = [] then coll.length
  else (coll.filter (fun d => filters.all (clauseMatches d))).length

/-! ### Reading statistics (`get_reading_statistics`) -/

/-- `count_documents({"reading_status": status})`. -/
def countStatus (coll : List Doc) (status : String) : Nat :=
  coll.countP (fun d => decide (getField d "reading_status" = some (Val.str status)))

/-- Python `round(x, 2)` modelled on exact rationals: round half to even at
two decimal places. -/
def roundHalfEven (q : ℚ) : ℤ :=
  let f := ⌊q⌋
  if q - f < 1/2 then f
  else if q - f > 1/2 then f + 1
  else if f % 2 = 0 then f else f + 1

/-- Round a rational to two decimal places, Python-style. -/
def pyRound2 (q : ℚ) : ℚ := (roundHalfEven (q * 100) : ℚ) / 100

/-- The statistics record returned by `get_reading_statistics`. -/
structure ReadingStats where
  total_books : Nat
  read : Nat
  unread : Nat
  in_progress : Nat
  reading_percentage : ℚ
  progress_percentage : ℚ
deriving DecidableEq, Repr

/-- `DatabaseService.get_reading_statistics`: count per status, count the
total, treat documents carrying none of the three statuses as unread, and
compute the two percentages (0 when the collection is empty). -/
def get_reading_statistics (coll : List Doc) : ReadingStats :=
  let read_count := countStatus coll "read"
  let unread_count := countStatus coll "unread"
  let in_progress_count := countStatus coll "in_progress"
  let total_count := coll.length
  let no_status_count := total_count - read_count - unread_count - in_progress_count
  { total_books := total_count
    read := read_count
    unread := unread_count + no_status_count
    in_progress := in_progress_count
    reading_percentage :=
      if total_count > 0 then pyRound2 ((read_count : ℚ) / (total_count : ℚ) * 100) else 0
    progress_percentage :=
      if total_count > 0 then pyRound2 ((in_progress_count : ℚ) / (total_count : ℚ) * 100) else 0 }

/-! ## Request handlers (`src/controllers/book_controller.py`) -/

/-- The pagination block shaped by the list/search handlers. -/
structure Pagination where
  limit : Int
  skip : Int
  count : Nat
  total : Nat
  has_next : Bool
  has_prev : Bool
  page : Int
  total_pages : Int
deriving DecidableEq, Repr

/-- `BookList.get`: clamp `limit` to `(0, 100]` (default 50) and `skip` to
`≥ 0` (default 0), page through the collection, and shape the pagination
block (`page = skip // limit + 1`, `total_pages = (total + limit - 1) // limit`,
`has_next = skip + count < total`, `has_prev = skip > 0`; after clamping both
operands are nonnegative, so `Int` division agrees with Python `//`). -/
def bookList_get (coll : List Doc) (limit0 skip0 : Int) : List Doc × Pagination :=
  let limit : Int := if limit0 ≤ 0 ∨ limit0 > 100 then 50 else limit0
  let skip : Int := if skip0 < 0 then 0 else skip0
  let books := get_all_books coll limit.toNat skip.toNat
  let total := coll.length
  (books,
    { limit := limit
      skip := skip
      count := books.length
      total := total
      has_next := decide (skip + books.length < (total : Int))
      has_prev := decide (skip > 0)
      page := skip / limit + 1
      total_pages := ((total : Int) + limit - 1) / limit })

/-- The JSON `authors` field of the manual-add payload: the handler accepts a
single string (wrapped into a one-element list) or a list of strings. -/
inductive AuthorsJson where
  | one : String → AuthorsJson
  | many : List String → AuthorsJson
deriving DecidableEq, Repr

/-- The manual-add request body (`POST /books/manual`); `none` is an absent
key.  The `page_count` field is typed integer-or-absent, which collapses the
handler's `int()` coercion. -/
structure ManualPayload where
  isbn : Option String
  title : Option String
  authors : Option AuthorsJson
  description : Option String
  categories : Option (List String)
  page_count : Option Int
  cover_image : Option String
  published_date : Option String
  publisher : Option String
  language : Option String
  reading_status : Option String
deriving DecidableEq, Repr

/-- Python falsiness of an optional string field (absent or empty). -/
def strFalsy : Option String → Bool
  | none => true
  | some s => decide (s = "")

/-- Python falsiness of the `authors` field (absent, empty string or empty
list). -/
def authorsFalsy : Option AuthorsJson → Bool
  | none => true
  | some (AuthorsJson.one s) => decide (s = "")
  | some (AuthorsJson.many l) => decide (l = [])

/-- `data['authors'] if isinstance(data['authors'], list) else [data['authors']]`. -/
def coerceAuthors : AuthorsJson → List String
  | AuthorsJson.one s => [s]
  | AuthorsJson.many l => l

/-- Outcome of the manual-add handler. -/
inductive ManualResult where
  | badRequest : ManualResult
  | conflict : ManualResult
  | serverError : ManualResult
  | created : Doc → ManualResult
deriving DecidableEq, Repr

/-- Python `str.strip()`: drop whitespace from both ends of the string. -/
def pyStrip (s : String) : String :=
  String.mk (((s.data.dropWhile Char.isWhitespace).reverse.dropWhile
    Char.isWhitespace).reverse)

/-- The `book_data` dictionary built by `ManualBook.post`: stripped `isbn`
and `title`, coerced `authors`, defaults for the optional fields
(`language` defaults to `en`, `reading_status` to `unread`). -/
def buildManualDoc (p : ManualPayload) : Doc :=
  [("isbn", Val.str (pyStrip (p.isbn.getD ""))),
   ("title", Val.str (pyStrip (p.title.getD ""))),
   ("authors", Val.strList (coerceAuthors (p.authors.getD (AuthorsJson.many [])))),
   ("description", Val.str (p.description.getD "")),
   ("categories", Val.strList (p.categories.getD [])),
   ("page_count", match p.page_count with
      | some n => Val.int n
      | none => Val.null),
   ("cover_image", Val.str (p.cover_image.getD "")),
   ("published_date", Val.str (p.published_date.getD "")),
   ("publisher", Val.str (p.publisher.getD "")),
   ("language", Val.str (p.language.getD "en")),
   ("reading_status", Val.str (p.reading_status.getD "unread"))]

/-- `ManualBook.post`: require truthy `isbn`, `title`, `authors`; validate the
(stripped) ISBN; reject duplicates; build the book document with defaults;
replace a `reading_status` outside the three-value enum by `unread`; insert. -/
def manual_post (coll : List Doc) (p : ManualPayload) : ManualResult × List Doc :=
  if strFalsy p.isbn || strFalsy p.title || authorsFalsy p.authors then
    (ManualResult.badRequest, coll)
  else
    let isbn := pyStrip (p.isbn.getD "")
    if ¬ validate_isbn isbn then (ManualResult.badRequest, coll)
    else if book_exists coll isbn then (ManualResult.conflict, coll)
    else
      let book_data := buildManualDoc p
      let book_data2 :=
        if (p.reading_status.getD "unread") ∈ ["read", "unread", "in_progress"] then book_data
        else setField book_data "reading_status" (Val.str "unread")
      let r := add_book coll book_data2
      if r.1 then (ManualResult.created book_data2, r.2)
      else (ManualResult.serverError, r.2)

/-- Outcome of the `PUT /books/{isbn}` handler. -/
inductive PutResult where
  | badRequest : PutResult
  | notFound : PutResult
  | serverError : PutResult
  | updated : Doc → PutResult
deriving DecidableEq, Repr

/-- `Book.put`: validate the ISBN, require a non-empty body, check existence,
then apply the partial update (with no per-field validation) and return the
re-fetched document. -/
def book_put (coll : List Doc) (isbn : String) (data : List (String × Val)) :
    PutResult × List Doc :=
  if ¬ validate_isbn isbn then (PutResult.badRequest, coll)
  else if data = [] then (PutResult.badRequest, coll)
  else if ¬ book_exists coll isbn then (PutResult.notFound, coll)
  else
    let r := update_book coll isbn data
    if r.1 then
      match get_book_by_isbn r.2 isbn with
      | some b => (PutResult.updated b, r.2)
      | none => (PutResult.serverError, r.2)
    else (PutResult.serverError, r.2)

/-- Outcome of the `PUT /books/{isbn}/status` handler. -/
inductive StatusResult where
  | badRequest : StatusResult
  | notFound : StatusResult
  | serverError : StatusResult
  | ok : StatusResult
deriving DecidableEq, Repr

/-- `BookStatus.put`: validate the ISBN and the three-value enum, check
existence, then delegate to `update_reading_status`. -/
def bookStatus_put (coll : List Doc) (isbn : String) (body : Option String) :
    StatusResult × List Doc :=
  if ¬ validate_isbn isbn then (StatusResult.badRequest, coll)
  else
    match body with
    | none => (StatusResult.badRequest, coll)
    | some status =>
      if status ∉ ["read", "unread", "in_progress"] then (StatusResult.badRequest, coll)
      else if ¬ book_exists coll isbn then (StatusResult.notFound, coll)
      else
        match update_reading_status coll isbn status with
        | Except.ok r => (if r.1 then StatusResult.ok else StatusResult.serverError, r.2)
        | Except.error _ => (StatusResult.serverError, coll)

/-! ## Generic lemmas about documents and collections -/

theorem getField_setField_self (d : Doc) (k : String) (v : Val) :
    getField (setField d k v) k = some v := by
  unfold getField setField
  rw [List.find?_cons_of_pos _ (by simp)]
  rfl

theorem find?_key_filter (d : Doc) (k k2 : String) (h : k2 ≠ k) :
    (d.filter (fun p => p.1 ≠ k)).find? (fun p => p.1 == k2)
      = d.find? (fun p => p.1 == k2) := by
  induction d with
  | nil => rfl
  | cons a d ih =>
    by_cases ha : a.1 = k2
    · have hfk : a.1 ≠ k := by rw [ha]; exact h
      rw [List.filter_cons_of_pos (by simpa using hfk)]
      rw [List.find?_cons_of_pos _ (by simp [ha]), List.find?_cons_of_pos _ (by simp [ha])]
    · by_cases hak : a.1 = k
      · rw [List.filter_cons_of_neg (by simp [hak])]
        rw [List.find?_cons_of_neg _ (by simp [ha])]
        exact ih
      · rw [List.filter_cons_of_pos (by simp [hak])]
        rw [List.find?_cons_of_neg _ (by simp [ha]), List.find?_cons_of_neg _ (by simp [ha])]
        exact ih

theorem getField_setField_ne (d : Doc) (k k2 : String) (v : Val) (h : k2 ≠ k) :
    getField (setField d k v) k2 = getField d k2 := by
  unfold getField setField
  rw [List.find?_cons_of_neg _ (by simpa using h.symm), find?_key_filter d k k2 h]

/-- The status-defaulting step of `add_book` never touches the `isbn` field. -/
theorem add_book_doc_isbn (book_data : Doc) :
    getField (match getField book_data "reading_status" with
      | none => setField book_data "reading_status" (Val.str "unread")
      | some _ => book_data) "isbn" = getField book_data "isbn" := by
  cases h : getField book_data "reading_status" with
  | none => exact getField_setField_ne _ _ _ _ (by decide)
  | some v => rfl

/-! ## C5: search with no criteria -/

/-- C5: for every collection state, calling search with none of `query`,
`title`, `author`, `category` supplied returns the empty sequence, never the
full collection. -/
theorem search_books_no_criteria (coll : List Doc) (limit skip : Nat) :
    search_books coll none none none none limit skip = [] := by
  simp [search_books, optTruthy, emptyFilters]

/-! ## C8: duplicate insert -/

/-- C8: inserting a book whose `isbn` value equals that of a stored book
returns `False` (rather than raising) and leaves the collection — in
particular the existing record — completely unmodified. -/
theorem add_book_duplicate_noop (coll : List Doc) (book : Doc)
    (h : ∃ e ∈ coll, getField e "isbn" = getField book "isbn") :
    add_book coll book = (false, coll) := by
  have hdup : insertOne coll (match getField book "reading_status" with
      | none => setField book "reading_status" (Val.str "unread")
      | some _ => book) = none := by
    unfold insertOne
    simp only [add_book_doc_isbn]
    rw [if_pos]
    obtain ⟨e, he, heq⟩ := h
    exact List.any_eq_true.mpr ⟨e, he, decide_eq_true heq⟩
  simp only [add_book, hdup]

/-- Witness for C8: a concrete duplicate insert is refused and the stored
record survives untouched. -/
theorem add_book_duplicate_noop_witness :
    add_book [[("isbn", Val.str "0439708184"), ("reading_status", Val.str "read")]]
        [("isbn", Val.str "0439708184"), ("title", Val.str "duplicate")]
      = (false, [[("isbn", Val.str "0439708184"), ("reading_status", Val.str "read")]]) :=
  add_book_duplicate_noop _ _ (by decide)

/-! ## C6: pagination arithmetic -/

theorem ceil_ratCast_div (m n : Nat) (hn : 0 < n) :
    ⌈(m : ℚ) / (n : ℚ)⌉₊ = (m + n - 1) / n := by
  have hn0 : (0 : ℚ) < (n : ℚ) := by exact_mod_cast hn
  apply le_antisymm
  · rw [Nat.ceil_le, div_le_iff₀ hn0]
    have hlt : m + n - 1 < n * ((m + n - 1) / n + 1) := Nat.lt_mul_div_succ _ hn
    have hnat : m ≤ ((m + n - 1) / n) * n := by
      have h2 : m + n - 1 < n * ((m + n - 1) / n) + n := by
        rw [Nat.mul_add, Nat.mul_one] at hlt
        exact hlt
      rw [Nat.mul_comm]
      generalize n * ((m + n - 1) / n) = t at h2 ⊢
      omega
    exact_mod_cast hnat
  · have hle : (m : ℚ) / (n : ℚ) ≤ (⌈(m : ℚ) / (n : ℚ)⌉₊ : ℚ) := Nat.le_ceil _
    rw [div_le_iff₀ hn0] at hle
    have hnat : m ≤ ⌈(m : ℚ) / (n : ℚ)⌉₊ * n := by exact_mod_cast hle
    rw [Nat.div_le_iff_le_mul_add_pred hn, Nat.mul_comm]
    generalize ⌈(m : ℚ) / (n : ℚ)⌉₊ * n = t at hnat ⊢
    omega

theorem int_pages_eq (total ln : Nat) (hln : 0 < ln) :
    ((total : ℤ) + (ln : ℤ) - 1) / (ln : ℤ) = ((⌈(total : ℚ) / (ln : ℚ)⌉₊ : ℕ) : ℤ) := by
  rw [ceil_ratCast_div total ln hln]
  have h1 : ((total : ℤ) + (ln : ℤ) - 1) = ((total + ln - 1 : ℕ) : ℤ) := by omega
  rw [h1, Int.ofNat_tdiv]
  rfl

set_option maxRecDepth 4000 in
/-- C6: for every list request, a `limit` outside `(0, 100]` is replaced by 50
and a negative `skip` by 0, and the pagination block satisfies
`page = skip // limit + 1`, `total_pages = ceil(total / limit)`,
`has_next = (skip + returned_count < total)`, `has_prev = (skip > 0)`;
in particular `total = 120`, `limit = 50`, `skip = 50` yields `page = 2`,
`total_pages = 3`, `has_next = true`, `has_prev = true`. -/
theorem bookList_pagination_correct (coll : List Doc) (limit0 skip0 : Int) :
    ((bookList_get coll limit0 skip0).2.limit
        = (if limit0 ≤ 0 ∨ limit0 > 100 then 50 else limit0) ∧
      (bookList_get coll limit0 skip0).2.skip = (if skip0 < 0 then 0 else skip0) ∧
      (bookList_get coll limit0 skip0).2.page
        = (bookList_get coll limit0 skip0).2.skip / (bookList_get coll limit0 skip0).2.limit + 1 ∧
      (bookList_get coll limit0 skip0).2.total_pages
        = ((⌈((bookList_get coll limit0 skip0).2.total : ℚ)
              / (((bookList_get coll limit0 skip0).2.limit : ℤ) : ℚ)⌉₊ : ℕ) : ℤ) ∧
      (bookList_get coll limit0 skip0).2.has_next
        = decide ((bookList_get coll limit0 skip0).2.skip
            + ((bookList_get coll limit0 skip0).2.count : ℤ)
            < ((bookList_get coll limit0 skip0).2.total : ℤ)) ∧
      (bookList_get coll limit0 skip0).2.has_prev
        = decide ((bookList_get coll limit0 skip0).2.skip > 0)) ∧
    ((bookList_get (List.replicate 120 ([] : Doc)) 50 50).2.page = 2 ∧
      (bookList_get (List.replicate 120 ([] : Doc)) 50 50).2.total_pages = 3 ∧
      (bookList_get (List.replicate 120 ([] : Doc)) 50 50).2.has_next = true ∧
      (bookList_get (List.replicate 120 ([] : Doc)) 50 50).2.has_prev = true) := by
  have hpos : (0 : ℤ) < (if limit0 ≤ 0 ∨ limit0 > 100 then 50 else limit0) := by
    by_cases h : limit0 ≤ 0 ∨ limit0 > 100
    · simp [h]
    · simp only [h, if_false]
      omega
  refine ⟨⟨rfl, rfl, rfl, ?_, rfl, rfl⟩, ?_⟩
  · show ((coll.length : ℤ) + (if limit0 ≤ 0 ∨ limit0 > 100 then 50 else limit0) - 1)
        / (if limit0 ≤ 0 ∨ limit0 > 100 then 50 else limit0)
        = ((⌈(coll.length : ℚ)
            / (((if limit0 ≤ 0 ∨ limit0 > 100 then 50 else limit0 : ℤ)) : ℚ)⌉₊ : ℕ) : ℤ)
    set L : ℤ := if limit0 ≤ 0 ∨ limit0 > 100 then 50 else limit0 with hL
    have hLnat : L = ((L.toNat : ℕ) : ℤ) := (Int.toNat_of_nonneg (le_of_lt hpos)).symm
    have hLpos : 0 < L.toNat := by omega
    rw [hLnat, Int.cast_natCast]
    exact int_pages_eq coll.length L.toNat hLpos
  · decide

/-! ## C7: reading statistics -/

/-- Under the data model (each stored status, if present, is one of the three
enumerated strings), the subtraction-based `no_status_count` of
`get_reading_statistics` counts exactly the documents with no
`reading_status` field. -/
theorem status_partition (coll : List Doc)
    (henum : ∀ d ∈ coll, getField d "reading_status" = none ∨
      getField d "reading_status" = some (Val.str "read") ∨
      getField d "reading_status" = some (Val.str "unread") ∨
      getField d "reading_status" = some (Val.str "in_progress")) :
    coll.length = countStatus coll "read" + countStatus coll "unread"
        + countStatus coll "in_progress"
        + coll.countP (fun d => decide (getField d "reading_status" = none)) := by
  induction coll with
  | nil => rfl
  | cons d rest ih =>
    have hd := henum d (List.mem_cons_self d rest)
    have ih2 := ih (fun e he => henum e (List.mem_cons_of_mem d he))
    unfold countStatus at *
    rcases hd with h0 | h0 | h0 | h0 <;>
      simp only [List.countP_cons, List.length_cons, h0] <;> simp <;> omega

theorem no_status_count_eq (coll : List Doc)
    (henum : ∀ d ∈ coll, getField d "reading_status" = none ∨
      getField d "reading_status" = some (Val.str "read") ∨
      getField d "reading_status" = some (Val.str "unread") ∨
      getField d "reading_status" = some (Val.str "in_progress")) :
    coll.length - countStatus coll "read" - countStatus coll "unread"
        - countStatus coll "in_progress"
      = coll.countP (fun d => decide (getField d "reading_status" = none)) := by
  have h := status_partition coll henum
  omega

/-- C7: `readingStatistics` returns the total count, the per-status counts
with every record lacking a `reading_status` field counted as unread, and the
two percentages `round(count/total*100, 2)`, defined as 0 when the collection
is empty. -/
theorem get_reading_statistics_correct (coll : List Doc)
    (henum : ∀ d ∈ coll, getField d "reading_status" = none ∨
      getField d "reading_status" = some (Val.str "read") ∨
      getField d "reading_status" = some (Val.str "unread") ∨
      getField d "reading_status" = some (Val.str "in_progress")) :
    (get_reading_statistics coll).total_books = coll.length ∧
    (get_reading_statistics coll).read = countStatus coll "read" ∧
    (get_reading_statistics coll).in_progress = countStatus coll "in_progress" ∧
    (get_reading_statistics coll).unread
      = countStatus coll "unread"
        + coll.countP (fun d => decide (getField d "reading_status" = none)) ∧
    (get_reading_statistics coll).reading_percentage
      = (if coll.length = 0 then 0
          else pyRound2 ((countStatus coll "read" : ℚ) / (coll.length : ℚ) * 100)) ∧
    (get_reading_statistics coll).progress_percentage
      = (if coll.length = 0 then 0
          else pyRound2 ((countStatus coll "in_progress" : ℚ) / (coll.length : ℚ) * 100)) := by
  refine ⟨rfl, rfl, rfl, ?_, ?_, ?_⟩
  · show countStatus coll "unread"
        + (coll.length - countStatus coll "read" - countStatus coll "unread"
            - countStatus coll "in_progress") = _
    rw [no_status_count_eq coll henum]
  · show (if coll.length > 0
        then pyRound2 ((countStatus coll "read" : ℚ) / (coll.length : ℚ) * 100) else 0) = _
    by_cases hz : coll.length = 0
    · simp [hz]
    · rw [if_pos (Nat.pos_of_ne_zero hz), if_neg hz]
  · show (if coll.length > 0
        then pyRound2 ((countStatus coll "in_progress" : ℚ) / (coll.length : ℚ) * 100) else 0) = _
    by_cases hz : coll.length = 0
    · simp [hz]
    · rw [if_pos (Nat.pos_of_ne_zero hz), if_neg hz]

/-- The three-book example of the spec: statuses `read`, `unread`, and
absent. -/
def statsExample : List Doc :=
  [[("isbn", Val.str "1"), ("reading_status", Val.str "read")],
   [("isbn", Val.str "2"), ("reading_status", Val.str "unread")],
   [("isbn", Val.str "3")]]

/-- Witness for C7: on the three-book example the unset status counts as
unread (`unread = 2`) and `reading_percentage = 33.33`. -/
theorem get_reading_statistics_correct_witness :
    (get_reading_statistics statsExample).unread = 2 ∧
    (get_reading_statistics statsExample).reading_percentage = 3333 / 100 := by
  have h := get_reading_statistics_correct statsExample (by decide)
  constructor
  · rw [h.2.2.2.1]
    decide
  · rw [h.2.2.2.2.1, if_neg (by decide)]
    have hc : countStatus statsExample "read" = 1 := by decide
    have hl : statsExample.length = 3 := by decide
    rw [hc, hl]
    unfold pyRound2 roundHalfEven
    have hq : ((1 : ℕ) : ℚ) / ((3 : ℕ) : ℚ) * 100 * 100 = 10000 / 3 := by
      push_cast
      ring
    rw [hq]
    have hf : (⌊(10000 : ℚ) / 3⌋ : ℤ) = 3333 := by
      rw [Int.floor_eq_iff]
      norm_num
    rw [hf, if_pos (by norm_num)]
    norm_num

/-! ## C3: the reading-status enum invariant -/

/-- A stored record carries one of the three enumerated statuses. -/
def statusOk (d : Doc) : Prop :=
  getField d "reading_status" = some (Val.str "read") ∨
  getField d "reading_status" = some (Val.str "unread") ∨
  getField d "reading_status" = some (Val.str "in_progress")

instance (d : Doc) : Decidable (statusOk d) := by
  unfold statusOk
  infer_instance

/-- Every stored record carries one of the three enumerated statuses. -/
def statusInvariantHolds (coll : List Doc) : Prop := ∀ d ∈ coll, statusOk d

instance (coll : List Doc) : Decidable (statusInvariantHolds coll) := by
  unfold statusInvariantHolds
  exact List.decidableBAll _ coll

/-- A concrete run of public operations: add one book through the repository
(status defaulted to `unread`), then hit the public partial-update endpoint
with a payload setting `reading_status` to `bogus`. -/
def statusEscapeRun : List Doc :=
  (book_put
    (add_book [] [("isbn", Val.str "0439708184"),
      ("title", Val.str "Harry Potter"),
      ("authors", Val.strList ["J. K. Rowling"])]).2
    "0439708184"
    [("reading_status", Val.str "bogus")]).2

/-- Counterexample to C3 as stated: the partial-update operation stores a
`reading_status` outside the three-value enum, so the invariant does not
survive every public operation. -/
theorem status_invariant_violated : ¬ statusInvariantHolds statusEscapeRun := by decide

theorem insertOne_some (coll : List Doc) (d : Doc) (c2 : List Doc)
    (h : insertOne coll d = some c2) : c2 = coll ++ [d] := by
  unfold insertOne at h
  by_cases hc : coll.any (fun e => decide (getField e "isbn" = getField d "isbn"))
  · rw [if_pos hc] at h
    cases h
  · rw [if_neg hc] at h
    exact (Option.some.injEq _ _ ▸ h).symm

/-- `add_book` either leaves the collection unchanged or appends the
status-defaulted document. -/
theorem add_book_state (coll : List Doc) (data : Doc) :
    (add_book coll data).2 = coll ∨
    (add_book coll data).2 = coll ++ [match getField data "reading_status" with
      | none => setField data "reading_status" (Val.str "unread")
      | some _ => data] := by
  cases hins : insertOne coll (match getField data "reading_status" with
      | none => setField data "reading_status" (Val.str "unread")
      | some _ => data) with
  | none =>
    left
    simp only [add_book, hins]
  | some c2 =>
    right
    simp only [add_book, hins]
    exact insertOne_some _ _ _ hins

/-- Every document of the updated collection is either an original document
or the `$set`-image of an original document. -/
theorem updateFirst_cases (coll : List Doc) (isbn : String) (upd : List (String × Val)) :
    ∀ d ∈ (updateFirst coll isbn upd).2, d ∈ coll ∨ ∃ e ∈ coll, d = applySet e upd := by
  induction coll with
  | nil =>
    intro d hd
    cases hd
  | cons a rest ih =>
    intro d hd
    by_cases ha : getField a "isbn" = some (Val.str isbn)
    · simp only [updateFirst, if_pos ha] at hd
      rcases List.mem_cons.mp hd with rfl | hmem
      · exact Or.inr ⟨a, List.mem_cons_self a rest, rfl⟩
      · exact Or.inl (List.mem_cons_of_mem _ hmem)
    · simp only [updateFirst, if_neg ha] at hd
      rcases List.mem_cons.mp hd with rfl | hmem
      · exact Or.inl (List.mem_cons_self _ _)
      · rcases ih d hmem with h1 | ⟨e, he, hde⟩
        · exact Or.inl (List.mem_cons_of_mem _ h1)
        · exact Or.inr ⟨e, List.mem_cons_of_mem _ he, hde⟩

/-- A field not named in a `$set` payload is untouched. -/
theorem getField_applySet_not_mem (d : Doc) (upd : List (String × Val)) (f : String)
    (h : f ∉ upd.map Prod.fst) :
    getField (applySet d upd) f = getField d f := by
  induction upd generalizing d with
  | nil => rfl
  | cons p rest ih =>
    have hne : f ≠ p.1 := by
      intro he
      exact h (by simp [he])
    have hrest : f ∉ rest.map Prod.fst := by
      intro hmem
      exact h (by simp [hmem])
    show getField (applySet (setField d p.1 p.2) rest) f = getField d f
    rw [ih (setField d p.1 p.2) hrest]
    exact getField_setField_ne _ _ _ _ hne

/-- A field named in a duplicate-free `$set` payload receives its value. -/
theorem getField_applySet_mem (d : Doc) (upd : List (String × Val)) (f : String) (v : Val)
    (hnd : (upd.map Prod.fst).Nodup) (hmem : (f, v) ∈ upd) :
    getField (applySet d upd) f = some v := by
  induction upd generalizing d with
  | nil => cases hmem
  | cons p rest ih =>
    rcases List.mem_cons.mp hmem with heq | hmem2
    · have hnotin : f ∉ rest.map Prod.fst := by
        have := (List.nodup_cons.mp hnd).1
        rw [← heq] at this
        exact this
      show getField (applySet (setField d p.1 p.2) rest) f = some v
      rw [getField_applySet_not_mem _ _ _ hnotin, ← heq]
      exact getField_setField_self _ _ _
    · show getField (applySet (setField d p.1 p.2) rest) f = some v
      exact ih (setField d p.1 p.2) (List.nodup_cons.mp hnd).2 hmem2

theorem mem_keys_removeKey {data : List (String × Val)} {k f : String}
    (h : f ∈ (removeKey data k).map Prod.fst) : f ∈ data.map Prod.fst := by
  unfold removeKey at h
  simp only [List.mem_map] at h ⊢
  obtain ⟨p, hp, rfl⟩ := h
  exact ⟨p, (List.mem_filter.mp hp).1, rfl⟩

/-- Adding a book whose status-defaulted document satisfies the enum keeps
the invariant. -/
theorem add_book_preserves_status (coll : List Doc) (h : statusInvariantHolds coll)
    (data : Doc)
    (hok : statusOk (match getField data "reading_status" with
      | none => setField data "reading_status" (Val.str "unread")
      | some _ => data)) :
    statusInvariantHolds (add_book coll data).2 := by
  rcases add_book_state coll data with hs | hs
  · rw [hs]
    exact h
  · rw [hs]
    intro d hd
    rcases List.mem_append.mp hd with hmem | hmem
    · exact h d hmem
    · have hd2 := List.mem_singleton.mp hmem
      subst hd2
      exact hok

/-- C3 (amended): starting from any state satisfying the three-value enum
invariant, the repository insert with a status-free document, the manual-add
endpoint, and the status-change endpoint all preserve the invariant, and the
generic partial update preserves it whenever its payload does not name
`reading_status`; a partial-update payload that names `reading_status` is
applied without validation (see the counterexample), which is the one gap in
the original claim. -/
theorem status_enum_preserved_except_update (coll : List Doc)
    (h : statusInvariantHolds coll) :
    (∀ data : Doc, getField data "reading_status" = none →
        statusInvariantHolds (add_book coll data).2) ∧
    (∀ p : ManualPayload, statusInvariantHolds (manual_post coll p).2) ∧
    (∀ isbn : String, ∀ body : Option String,
        statusInvariantHolds (bookStatus_put coll isbn body).2) ∧
    (∀ isbn : String, ∀ data : List (String × Val),
        "reading_status" ∉ data.map Prod.fst →
        statusInvariantHolds (book_put coll isbn data).2) := by
  refine ⟨?_, ?_, ?_, ?_⟩
  · intro data hdata
    apply add_book_preserves_status coll h data
    simp only [hdata]
    exact Or.inr (Or.inl (getField_setField_self _ _ _))
  · intro p
    simp only [manual_post]
    by_cases h1 : (strFalsy p.isbn || strFalsy p.title || authorsFalsy p.authors) = true
    · rw [if_pos h1]
      exact h
    · rw [if_neg h1]
      by_cases h2 : validate_isbn (pyStrip (p.isbn.getD "")) = true
      · rw [if_neg (not_not_intro h2)]
        by_cases h3 : book_exists coll (pyStrip (p.isbn.getD "")) = true
        · rw [if_pos h3]
          exact h
        · rw [if_neg h3]
          by_cases h4 : (p.reading_status.getD "unread") ∈ ["read", "unread", "in_progress"]
          · rw [if_pos h4]
            have h4s : p.reading_status.getD "unread" = "read" ∨
                p.reading_status.getD "unread" = "unread" ∨
                p.reading_status.getD "unread" = "in_progress" := by simpa using h4
            have hok : statusOk (match getField (buildManualDoc p) "reading_status" with
                | none => setField (buildManualDoc p) "reading_status" (Val.str "unread")
                | some _ => buildManualDoc p) := by
              show statusOk (buildManualDoc p)
              unfold statusOk
              show some (Val.str (p.reading_status.getD "unread")) = _ ∨
                some (Val.str (p.reading_status.getD "unread")) = _ ∨
                some (Val.str (p.reading_status.getD "unread")) = _
              rcases h4s with hs | hs | hs <;> rw [hs]
              · exact Or.inl rfl
              · exact Or.inr (Or.inl rfl)
              · exact Or.inr (Or.inr rfl)
            by_cases h5 : (add_book coll (buildManualDoc p)).1 = true
            · rw [if_pos h5]
              exact add_book_preserves_status coll h _ hok
            · rw [if_neg h5]
              exact add_book_preserves_status coll h _ hok
          · rw [if_neg h4]
            have hok : statusOk (match getField
                (setField (buildManualDoc p) "reading_status" (Val.str "unread"))
                "reading_status" with
                | none => setField (setField (buildManualDoc p) "reading_status"
                    (Val.str "unread")) "reading_status" (Val.str "unread")
                | some _ => setField (buildManualDoc p) "reading_status" (Val.str "unread")) := by
              simp only [getField_setField_self]
              exact Or.inr (Or.inl (getField_setField_self _ _ _))
            by_cases h5 : (add_book coll
                (setField (buildManualDoc p) "reading_status" (Val.str "unread"))).1 = true
            · rw [if_pos h5]
              exact add_book_preserves_status coll h _ hok
            · rw [if_neg h5]
              exact add_book_preserves_status coll h _ hok
      · rw [if_pos h2]
        exact h
  · intro isbn body
    cases body with
    | none =>
      simp only [bookStatus_put]
      by_cases h1 : validate_isbn isbn = true
      · rw [if_neg (not_not_intro h1)]
        exact h
      · rw [if_pos h1]
        exact h
    | some status =>
      simp only [bookStatus_put]
      by_cases h1 : validate_isbn isbn = true
      · rw [if_neg (not_not_intro h1)]
        by_cases h2 : status ∈ ["read", "unread", "in_progress"]
        · rw [if_neg (not_not_intro h2)]
          by_cases h3 : book_exists coll isbn = true
          · rw [if_neg (not_not_intro h3)]
            unfold update_reading_status
            rw [if_neg (not_not_intro h2)]
            show statusInvariantHolds
              (updateFirst coll isbn [("reading_status", Val.str status)]).2
            intro d hd
            rcases updateFirst_cases coll isbn _ d hd with hmem | ⟨e, he, rfl⟩
            · exact h d hmem
            · show statusOk (applySet e [("reading_status", Val.str status)])
              have h2s : status = "read" ∨ status = "unread" ∨ status = "in_progress" := by
                simpa using h2
              unfold statusOk
              have hg : getField (applySet e [("reading_status", Val.str status)])
                  "reading_status" = some (Val.str status) :=
                getField_setField_self _ _ _
              rcases h2s with hs | hs | hs <;> rw [hg, hs]
              · exact Or.inl rfl
              · exact Or.inr (Or.inl rfl)
              · exact Or.inr (Or.inr rfl)
          · rw [if_pos h3]
            exact h
        · rw [if_pos h2]
          exact h
      · rw [if_pos h1]
        exact h
  · intro isbn data hnk
    simp only [book_put]
    by_cases h1 : validate_isbn isbn = true
    · rw [if_neg (not_not_intro h1)]
      by_cases h2 : data = []
      · rw [if_pos h2]
        exact h
      · rw [if_neg h2]
        by_cases h3 : book_exists coll isbn = true
        · rw [if_neg (not_not_intro h3)]
          have hstate : statusInvariantHolds (update_book coll isbn data).2 := by
            intro d hd
            simp only [update_book] at hd
            rcases updateFirst_cases coll isbn (removeKey data "isbn") d hd with
              hmem | ⟨e, he, rfl⟩
            · exact h d hmem
            · have hpres := getField_applySet_not_mem e (removeKey data "isbn")
                "reading_status" (fun hc => hnk (mem_keys_removeKey hc))
              rcases h e he with h0 | h0 | h0
              · exact Or.inl (hpres.trans h0)
              · exact Or.inr (Or.inl (hpres.trans h0))
              · exact Or.inr (Or.inr (hpres.trans h0))
          by_cases h4 : (update_book coll isbn data).1 = true
          · rw [if_pos h4]
            cases hb : get_book_by_isbn (update_book coll isbn data).2 isbn with
            | some b =>
              simp only [hb]
              exact hstate
            | none =>
              simp only [hb]
              exact hstate
          · rw [if_neg h4]
            exact hstate
        · rw [if_pos h3]
          exact h
    · rw [if_pos h1]
      exact h

/-- Witness for the amended C3: the preserved-status theorem applied to a
concrete insert into the empty collection. -/
theorem status_enum_preserved_except_update_witness :
    statusInvariantHolds (add_book [] [("isbn", Val.str "0439708184")]).2 :=
  (status_enum_preserved_except_update [] (by decide)).1
    [("isbn", Val.str "0439708184")] rfl

/-! ## C9: the partial update -/

theorem isbn_not_in_removeKey (upd : List (String × Val)) :
    "isbn" ∉ (removeKey upd "isbn").map Prod.fst := by
  intro h
  simp only [removeKey, List.mem_map] at h
  obtain ⟨p, hp, he⟩ := h
  have h2 := (List.mem_filter.mp hp).2
  rw [he] at h2
  simp at h2

theorem nodup_keys_removeKey {upd : List (String × Val)} (h : (upd.map Prod.fst).Nodup)
    (k : String) : ((removeKey upd k).map Prod.fst).Nodup :=
  h.sublist ((List.filter_sublist upd).map Prod.fst)

theorem updateFirst_length (coll : List Doc) (isbn : String) (upd : List (String × Val)) :
    (updateFirst coll isbn upd).2.length = coll.length := by
  induction coll with
  | nil => rfl
  | cons a rest ih =>
    by_cases ha : getField a "isbn" = some (Val.str isbn)
    · simp only [updateFirst, if_pos ha, List.length_cons]
    · simp only [updateFirst, if_neg ha, List.length_cons, ih]

theorem updateFirst_no_match (coll : List Doc) (isbn : String) (upd : List (String × Val))
    (h : ∀ d ∈ coll, ¬ (getField d "isbn" = some (Val.str isbn))) :
    updateFirst coll isbn upd = (0, coll) := by
  induction coll with
  | nil => rfl
  | cons a rest ih =>
    have ha := h a (List.mem_cons_self _ _)
    simp only [updateFirst, if_neg ha]
    rw [ih (fun d hd => h d (List.mem_cons_of_mem _ hd))]

theorem updateFirst_getD (coll : List Doc) (isbn : String) (upd : List (String × Val)) :
    ∀ i : Nat, (updateFirst coll isbn upd).2.getD i ([] : Doc) = coll.getD i [] ∨
      (updateFirst coll isbn upd).2.getD i [] = applySet (coll.getD i []) upd := by
  induction coll with
  | nil =>
    intro i
    exact Or.inl rfl
  | cons a rest ih =>
    intro i
    by_cases ha : getField a "isbn" = some (Val.str isbn)
    · simp only [updateFirst, if_pos ha]
      cases i with
      | zero => exact Or.inr rfl
      | succ n => exact Or.inl rfl
    · simp only [updateFirst, if_neg ha]
      cases i with
      | zero => exact Or.inl rfl
      | succ n => simpa using ih n

theorem updateFirst_success (coll : List Doc) (isbn : String) (upd : List (String × Val))
    (hkey : ∀ e : Doc, getField (applySet e upd) "isbn" = getField e "isbn")
    (d : Doc) (h : get_book_by_isbn coll isbn = some d) :
    (updateFirst coll isbn upd).1 = 1 ∧
    get_book_by_isbn (updateFirst coll isbn upd).2 isbn = some (applySet d upd) := by
  induction coll with
  | nil => cases h
  | cons a rest ih =>
    by_cases ha : getField a "isbn" = some (Val.str isbn)
    · have hda : d = a := by
        unfold get_book_by_isbn at h
        rw [List.find?_cons_of_pos rest
          (show (fun e => decide (getField e "isbn" = some (Val.str isbn))) a = true from
            decide_eq_true ha)] at h
        exact (Option.some.injEq _ _ ▸ h).symm
      subst hda
      simp only [updateFirst, if_pos ha]
      refine ⟨trivial, ?_⟩
      unfold get_book_by_isbn
      exact List.find?_cons_of_pos rest
        (show (fun e => decide (getField e "isbn" = some (Val.str isbn))) (applySet d upd)
            = true from decide_eq_true ((hkey d).trans ha))
    · have h2 : get_book_by_isbn rest isbn = some d := by
        unfold get_book_by_isbn at h ⊢
        rwa [List.find?_cons_of_neg _ (by simpa using ha)] at h
      have hih := ih h2
      simp only [updateFirst, if_neg ha]
      refine ⟨hih.1, ?_⟩
      unfold get_book_by_isbn at hih ⊢
      rw [List.find?_cons_of_neg _ (by simpa using ha)]
      exact hih.2

/-- C9: the partial update never changes a stored `isbn` (the payload's
`isbn` field is stripped before applying), applies every other supplied
field to the matched record, leaves fields not named in the payload
unchanged (on every record), and returns `False` with the collection
unchanged when no record matches. -/
theorem update_book_frame (coll : List Doc) (isbn : String) (upd : List (String × Val))
    (hnd : (upd.map Prod.fst).Nodup) :
    (get_book_by_isbn coll isbn = none → update_book coll isbn upd = (false, coll)) ∧
    ((update_book coll isbn upd).2.length = coll.length) ∧
    (∀ i : Nat,
      getField ((update_book coll isbn upd).2.getD i ([] : Doc)) "isbn"
        = getField (coll.getD i []) "isbn" ∧
      (∀ f, f ∉ upd.map Prod.fst →
        getField ((update_book coll isbn upd).2.getD i ([] : Doc)) f
          = getField (coll.getD i []) f)) ∧
    (∀ d, get_book_by_isbn coll isbn = some d →
      (update_book coll isbn upd).1 = true ∧
      get_book_by_isbn (update_book coll isbn upd).2 isbn
        = some (applySet d (removeKey upd "isbn")) ∧
      (∀ f v, f ≠ "isbn" → (f, v) ∈ upd →
        getField (applySet d (removeKey upd "isbn")) f = some v)) := by
  have hremnd : ((removeKey upd "isbn").map Prod.fst).Nodup := nodup_keys_removeKey hnd "isbn"
  refine ⟨?_, ?_, ?_, ?_⟩
  · intro hnone
    have hall : ∀ d ∈ coll, ¬ (getField d "isbn" = some (Val.str isbn)) := by
      intro d hd hc
      have := List.find?_eq_none.mp hnone d hd
      exact this (decide_eq_true hc)
    simp only [update_book, updateFirst_no_match coll isbn (removeKey upd "isbn") hall]
    rfl
  · show (updateFirst coll isbn (removeKey upd "isbn")).2.length = coll.length
    exact updateFirst_length coll isbn (removeKey upd "isbn")
  · intro i
    have hcase := updateFirst_getD coll isbn (removeKey upd "isbn") i
    rcases hcase with heq | heq
    · rw [show (update_book coll isbn upd).2.getD i ([] : Doc) = coll.getD i [] from heq]
      exact ⟨rfl, fun f _ => rfl⟩
    · rw [show (update_book coll isbn upd).2.getD i ([] : Doc)
          = applySet (coll.getD i []) (removeKey upd "isbn") from heq]
      constructor
      · exact getField_applySet_not_mem _ _ _ (isbn_not_in_removeKey upd)
      · intro f hf
        exact getField_applySet_not_mem _ _ _ (fun hc => hf (mem_keys_removeKey hc))
  · intro d hd
    have hkey : ∀ e : Doc, getField (applySet e (removeKey upd "isbn")) "isbn"
        = getField e "isbn" :=
      fun e => getField_applySet_not_mem _ _ _ (isbn_not_in_removeKey upd)
    have hsucc := updateFirst_success coll isbn (removeKey upd "isbn") hkey d hd
    refine ⟨?_, hsucc.2, ?_⟩
    · show decide ((updateFirst coll isbn (removeKey upd "isbn")).1 > 0) = true
      rw [hsucc.1]
      rfl
    · intro f v hf hmem
      apply getField_applySet_mem _ _ _ _ hremnd
      exact List.mem_filter.mpr ⟨hmem, by simpa using hf⟩

/-- Witness for C9: updating a concrete one-book collection changes the
supplied `title`, reports success, and the payload's `isbn` field is
stripped. -/
theorem update_book_frame_witness :
    (update_book [[("isbn", Val.str "1"), ("title", Val.str "Old")]] "1"
        [("title", Val.str "New"), ("isbn", Val.str "999")]).1 = true ∧
    getField (applySet [("isbn", Val.str "1"), ("title", Val.str "Old")]
        (removeKey [("title", Val.str "New"), ("isbn", Val.str "999")] "isbn")) "title"
      = some (Val.str "New") := by
  have h := update_book_frame [[("isbn", Val.str "1"), ("title", Val.str "Old")]] "1"
    [("title", Val.str "New"), ("isbn", Val.str "999")] (by decide)
  have h4 := h.2.2.2 [("isbn", Val.str "1"), ("title", Val.str "Old")] (by decide)
  exact ⟨h4.1, h4.2.2 "title" (Val.str "New") (by decide) (by decide)⟩

/-! ## C10: manual add with an out-of-enum status -/

/-- C10: at the manual-add endpoint, a payload whose `reading_status` is
present but outside the three-value enum is not rejected: provided the
required fields are truthy, the ISBN validates and is not already stored, the
book is created and stored with `reading_status` silently replaced by
`unread`. -/
theorem manual_post_invalid_status (coll : List Doc) (p : ManualPayload) (s : String)
    (hs : p.reading_status = some s)
    (hbad : s ∉ ["read", "unread", "in_progress"])
    (h1 : strFalsy p.isbn = false) (h2 : strFalsy p.title = false)
    (h3 : authorsFalsy p.authors = false)
    (hval : validate_isbn (pyStrip (p.isbn.getD "")) = true)
    (hdup : book_exists coll (pyStrip (p.isbn.getD "")) = false) :
    manual_post coll p
      = (ManualResult.created
          (setField (buildManualDoc p) "reading_status" (Val.str "unread")),
         coll ++ [setField (buildManualDoc p) "reading_status" (Val.str "unread")]) ∧
    getField (setField (buildManualDoc p) "reading_status" (Val.str "unread"))
        "reading_status" = some (Val.str "unread") := by
  have hges : p.reading_status.getD "unread" = s := by
    rw [hs]
    rfl
  have hisbn2 : getField (setField (buildManualDoc p) "reading_status" (Val.str "unread"))
      "isbn" = some (Val.str (pyStrip (p.isbn.getD ""))) := by
    rw [getField_setField_ne _ _ _ _ (by decide)]
    rfl
  have hins : insertOne coll (setField (buildManualDoc p) "reading_status" (Val.str "unread"))
      = some (coll ++ [setField (buildManualDoc p) "reading_status" (Val.str "unread")]) := by
    unfold insertOne
    rw [if_neg]
    intro hany
    obtain ⟨e, he, hee⟩ := List.any_eq_true.mp hany
    rw [hisbn2] at hee
    have hpos : book_exists coll (pyStrip (p.isbn.getD "")) = true := by
      unfold book_exists
      exact decide_eq_true (List.countP_pos_iff.mpr ⟨e, he, hee⟩)
    rw [hdup] at hpos
    exact absurd hpos (by decide)
  have hadd : add_book coll (setField (buildManualDoc p) "reading_status" (Val.str "unread"))
      = (true, coll ++ [setField (buildManualDoc p) "reading_status" (Val.str "unread")]) := by
    unfold add_book
    simp only [getField_setField_self, hins]
  simp only [manual_post]
  rw [if_neg (by rw [h1, h2, h3]; decide)]
  rw [if_neg (not_not_intro hval)]
  rw [if_neg (by rw [hdup]; decide)]
  rw [if_neg (show ¬ (p.reading_status.getD "unread" ∈ ["read", "unread", "in_progress"]) from
    by rw [hges]; exact hbad)]
  rw [hadd, if_pos rfl]
  exact ⟨rfl, getField_setField_self _ _ _⟩

/-- A concrete manual-add payload carrying the out-of-enum status
`finished`. -/
def mpExample : ManualPayload :=
  { isbn := some "0439708184"
    title := some "Harry Potter"
    authors := some (AuthorsJson.many ["J. K. Rowling"])
    description := none
    categories := none
    page_count := none
    cover_image := none
    published_date := none
    publisher := none
    language := none
    reading_status := some "finished" }

/-- Witness for C10: on the concrete payload the book is created and stored
with status `unread`. -/
theorem manual_post_invalid_status_witness :
    manual_post [] mpExample
      = (ManualResult.created
          (setField (buildManualDoc mpExample) "reading_status" (Val.str "unread")),
         [] ++ [setField (buildManualDoc mpExample) "reading_status" (Val.str "unread")]) :=
  (manual_post_invalid_status [] mpExample "finished" rfl (by decide) rfl rfl rfl
    (by decide) rfl).1

/-! ## C4: combined search criteria -/

/-- The claim's AND-combination of the supplied criteria: each of `title`,
`author`, `category`, when supplied, must case-insensitively substring-match
its field, and `query`, when supplied, must match `title` OR `authors` OR
`description`. -/
def satisfiesAllSupplied (query title author category : Option String) (d : Doc) : Bool :=
  (match query with
   | some q => fieldRegexMatches d "title" q || fieldRegexMatches d "authors" q
       || fieldRegexMatches d "description" q
   | none => true) &&
  (match title with
   | some t => fieldRegexMatches d "title" t
   | none => true) &&
  (match author with
   | some a => fieldRegexMatches d "authors" a
   | none => true) &&
  (match category with
   | some c => fieldRegexMatches d "categories" c
   | none => true)

theorem search_books_eq_filter (coll : List Doc) (q t a c : Option String)
    (lim skip : Nat)
    (hq : ∀ s, q = some s → s ≠ "") (ht : ∀ s, t = some s → s ≠ "")
    (ha : ∀ s, a = some s → s ≠ "") (hc : ∀ s, c = some s → s ≠ "")
    (hne : q ≠ none ∨ t ≠ none ∨ a ≠ none ∨ c ≠ none) :
    search_books coll q t a c lim skip
      = ((coll.filter (satisfiesAllSupplied q t a c)).drop skip).take lim := by
  have hbq : (if optTruthy q then q else none) = q := by
    cases q with
    | none => simp [optTruthy]
    | some s => simp [optTruthy, hq s rfl]
  have hbt : (if optTruthy t then t else none) = t := by
    cases t with
    | none => simp [optTruthy]
    | some s => simp [optTruthy, ht s rfl]
  have hba : (if optTruthy a then a else none) = a := by
    cases a with
    | none => simp [optTruthy]
    | some s => simp [optTruthy, ha s rfl]
  have hbc : (if optTruthy c then c else none) = c := by
    cases c with
    | none => simp [optTruthy]
    | some s => simp [optTruthy, hc s rfl]
  have hnemp : SearchFilters.mk q t a c ≠ emptyFilters := by
    intro he
    simp only [emptyFilters, SearchFilters.mk.injEq] at he
    rcases hne with h0 | h0 | h0 | h0
    · exact h0 he.1
    · exact h0 he.2.1
    · exact h0 he.2.2.1
    · exact h0 he.2.2.2
  simp only [search_books, hbq, hbt, hba, hbc]
  rw [if_neg hnemp]
  rfl

theorem countClauses_all (q t a c : Option String)
    (hq : ∀ s, q = some s → s ≠ "") (ht : ∀ s, t = some s → s ≠ "")
    (ha : ∀ s, a = some s → s ≠ "") (hc : ∀ s, c = some s → s ≠ "")
    (d : Doc) :
    (countClauses q t a c).all (clauseMatches d) = satisfiesAllSupplied q t a c d := by
  have e1 : (if optTruthy q then [SearchClause.orQuery (q.getD "")] else []).all
      (clauseMatches d)
      = (match q with
         | some s => fieldRegexMatches d "title" s || fieldRegexMatches d "authors" s
             || fieldRegexMatches d "description" s
         | none => true) := by
    cases q with
    | none => rfl
    | some s => simp [optTruthy, hq s rfl, clauseMatches]
  have e2 : (if optTruthy t then [SearchClause.fieldClause "title" (t.getD "")] else []).all
      (clauseMatches d)
      = (match t with
         | some s => fieldRegexMatches d "title" s
         | none => true) := by
    cases t with
    | none => rfl
    | some s => simp [optTruthy, ht s rfl, clauseMatches]
  have e3 : (if optTruthy a then [SearchClause.fieldClause "authors" (a.getD "")] else []).all
      (clauseMatches d)
      = (match a with
         | some s => fieldRegexMatches d "authors" s
         | none => true) := by
    cases a with
    | none => rfl
    | some s => simp [optTruthy, ha s rfl, clauseMatches]
  have e4 : (if optTruthy c then [SearchClause.fieldClause "categories" (c.getD "")] else []).all
      (clauseMatches d)
      = (match c with
         | some s => fieldRegexMatches d "categories" s
         | none => true) := by
    cases c with
    | none => rfl
    | some s => simp [optTruthy, hc s rfl, clauseMatches]
  unfold countClauses satisfiesAllSupplied
  rw [List.all_append, List.all_append, List.all_append, e1, e2, e3, e4]
  cases q <;> cases t <;> cases a <;> cases c <;> rfl

theorem countClauses_ne_nil (q t a c : Option String)
    (hq : ∀ s, q = some s → s ≠ "") (ht : ∀ s, t = some s → s ≠ "")
    (ha : ∀ s, a = some s → s ≠ "") (hc : ∀ s, c = some s → s ≠ "")
    (hne : q ≠ none ∨ t ≠ none ∨ a ≠ none ∨ c ≠ none) :
    countClauses q t a c ≠ [] := by
  intro hnil
  rcases hne with h0 | h0 | h0 | h0
  · cases q with
    | none => exact h0 rfl
    | some s => simp [countClauses, optTruthy, hq s rfl] at hnil
  · cases t with
    | none => exact h0 rfl
    | some s => simp [countClauses, optTruthy, ht s rfl] at hnil
  · cases a with
    | none => exact h0 rfl
    | some s => simp [countClauses, optTruthy, ha s rfl] at hnil
  · cases c with
    | none => exact h0 rfl
    | some s => simp [countClauses, optTruthy, hc s rfl] at hnil

theorem search_books_count_eq_filter (coll : List Doc) (q t a c : Option String)
    (hq : ∀ s, q = some s → s ≠ "") (ht : ∀ s, t = some s → s ≠ "")
    (ha : ∀ s, a = some s → s ≠ "") (hc : ∀ s, c = some s → s ≠ "")
    (hne : q ≠ none ∨ t ≠ none ∨ a ≠ none ∨ c ≠ none) :
    search_books_count coll q t a c
      = (coll.filter (satisfiesAllSupplied q t a c)).length := by
  unfold search_books_count
  rw [if_neg (countClauses_ne_nil q t a c hq ht ha hc hne)]
  exact congrArg List.length
    (List.filter_congr (fun d _ => countClauses_all q t a c hq ht ha hc d))

theorem search_title_author_inter (coll : List Doc) (t a : String) (d : Doc)
    (ht : t ≠ "") (ha : a ≠ "") :
    d ∈ search_books coll none (some t) (some a) none coll.length 0 ↔
      (d ∈ search_books coll none (some t) none none coll.length 0 ∧
       d ∈ search_books coll none none (some a) none coll.length 0) := by
  have hlen : ∀ p : Doc → Bool,
      ((coll.filter p).drop 0).take coll.length = coll.filter p := by
    intro p
    rw [List.drop_zero]
    exact List.take_of_length_le (le_trans (List.length_filter_le _ _) (le_refl _))
  rw [search_books_eq_filter coll none (some t) (some a) none coll.length 0
      (fun s hs => Option.noConfusion hs) (fun s hs => by injection hs with h2; rw [← h2]; exact ht)
      (fun s hs => by injection hs with h2; rw [← h2]; exact ha)
      (fun s hs => Option.noConfusion hs) (Or.inr (Or.inl (by simp)))]
  rw [search_books_eq_filter coll none (some t) none none coll.length 0
      (fun s hs => Option.noConfusion hs) (fun s hs => by injection hs with h2; rw [← h2]; exact ht)
      (fun s hs => Option.noConfusion hs)
      (fun s hs => Option.noConfusion hs) (Or.inr (Or.inl (by simp)))]
  rw [search_books_eq_filter coll none none (some a) none coll.length 0
      (fun s hs => Option.noConfusion hs) (fun s hs => Option.noConfusion hs)
      (fun s hs => by injection hs with h2; rw [← h2]; exact ha)
      (fun s hs => Option.noConfusion hs) (Or.inr (Or.inr (Or.inl (by simp))))]
  rw [hlen, hlen, hlen]
  simp only [List.mem_filter, satisfiesAllSupplied, Bool.true_and, Bool.and_true,
    Bool.and_eq_true]
  tauto

/-- C4: when several of `query`/`title`/`author`/`category` are supplied
(non-empty), the search returns exactly the page of documents satisfying
every supplied criterion combined with logical AND, the count operation
counts the same predicate, and supplying both `title` and `author` yields the
intersection of the two single-criterion result sets, not the union. -/
theorem search_and_semantics :
    (∀ (coll : List Doc) (query title author category : Option String) (limit skip : Nat),
      (∀ s, query = some s → s ≠ "") → (∀ s, title = some s → s ≠ "") →
      (∀ s, author = some s → s ≠ "") → (∀ s, category = some s → s ≠ "") →
      (query ≠ none ∨ title ≠ none ∨ author ≠ none ∨ category ≠ none) →
      search_books coll query title author category limit skip
        = ((coll.filter (satisfiesAllSupplied query title author category)).drop skip).take limit
      ∧ search_books_count coll query title author category
        = (coll.filter (satisfiesAllSupplied query title author category)).length) ∧
    (∀ (coll : List Doc) (t a : String) (d : Doc), t ≠ "" → a ≠ "" →
      (d ∈ search_books coll none (some t) (some a) none coll.length 0 ↔
        d ∈ search_books coll none (some t) none none coll.length 0 ∧
        d ∈ search_books coll none none (some a) none coll.length 0)) :=
  ⟨fun coll q t a c lim skip hq ht ha hc hne =>
    ⟨search_books_eq_filter coll q t a c lim skip hq ht ha hc hne,
     search_books_count_eq_filter coll q t a c hq ht ha hc hne⟩,
   fun coll t a d ht ha => search_title_author_inter coll t a d ht ha⟩

/-- A concrete book document matching both criteria of the C4 witness. -/
def docHP : Doc :=
  [("isbn", Val.str "0439708184"), ("title", Val.str "Harry Potter"),
   ("authors", Val.strList ["J. K. Rowling"]), ("description", Val.str "A wizard boy")]

/-- A concrete book document matching the title criterion only. -/
def docOther : Doc :=
  [("isbn", Val.str "0306406152"), ("title", Val.str "Harry the Dog"),
   ("authors", Val.strList ["Someone Else"])]

/-- Witness for C4: with both `title` and `author` supplied, only the
document matching both survives. -/
theorem search_and_semantics_witness :
    search_books [docHP, docOther] none (some "harry") (some "rowling") none 50 0
      = [docHP] := by
  have h := (search_and_semantics.1 [docHP, docOther] none (some "harry") (some "rowling")
    none 50 0
    (fun s hs => Option.noConfusion hs)
    (fun s hs => by injection hs with h2; rw [← h2]; decide)
    (fun s hs => by injection hs with h2; rw [← h2]; decide)
    (fun s hs => Option.noConfusion hs)
    (Or.inr (Or.inl (by simp)))).1
  rw [h]
  decide
